import Mathlib

/-!
Shallow embedding of the ProspectLens qualification-form core
(`QualificationForm` component, `ResultsPanel` component, and the shared
types), together with theorems settling the specification claims.
-/

namespace ProspectLens

/-- Translation of JavaScript `String.prototype.trim()`: remove leading
and trailing whitespace. -/
def jsTrim (s : String) : String :=
  String.mk (((s.data.dropWhile Char.isWhitespace).reverse.dropWhile Char.isWhitespace).reverse)

/-- Event details record, from `src/agent-ui/src/types.ts` (`EventDetails`). -/
structure EventDetails where
  name : String
  type : String
  requirements : List String
  audience : String
  format : String
  deriving DecidableEq

/-- Information source record, from `src/agent-ui/src/types.ts`. -/
structure InformationSource where
  query : String
  source : String
  found_existing : Bool
  deriving DecidableEq

/-- Unified outcome record, from `src/agent-ui/src/types.ts`
(`QualificationResult`); the optional `error` field is an `Option`. -/
structure QualificationResult where
  person_name : String
  qualification_score : ℚ
  qualification_reasoning : String
  searches_performed : Nat
  information_sources : List InformationSource
  timestamp : String
  error : Option String
  deriving DecidableEq

/-- The in-memory state of the `QualificationForm` component: the five
`useState` hooks (`personName`, `eventUrl`, `useManualDetails`,
`eventDetails`, `activeTab`). -/
structure FormState where
  personName : String
  eventUrl : String
  useManualDetails : Bool
  eventDetails : EventDetails
  activeTab : String
  deriving DecidableEq

/-- Initial state of the form component (the `useState` initialisers). -/
def initialState : FormState :=
  { personName := ""
    eventUrl := ""
    useManualDetails := false
    eventDetails :=
      { name := ""
        type := ""
        requirements := [""]
        audience := ""
        format := "" }
    activeTab := "person" }

/-- `addRequirement`: appends an empty slot to the requirements list. -/
def addRequirement (s : FormState) : FormState :=
  { s with eventDetails :=
      { s.eventDetails with requirements := s.eventDetails.requirements ++ [""] } }

/-- The list transformation inside `removeRequirement`:
`requirements.filter((_, i) => i !== index)`, a positional filter on the
index produced by enumeration. -/
def removeRequirementList (index : Nat) (reqs : List String) : List String :=
  (reqs.enum.filter (fun p => p.1 != index)).map Prod.snd

/-- `removeRequirement(index)` on the component state. -/
def removeRequirement (index : Nat) (s : FormState) : FormState :=
  { s with eventDetails :=
      { s.eventDetails with
          requirements := removeRequirementList index s.eventDetails.requirements } }

/-- The list transformation inside `updateRequirement`:
`requirements.map((req, i) => i === index ? value : req)`. -/
def updateRequirementList (index : Nat) (value : String) (reqs : List String) :
    List String :=
  reqs.mapIdx (fun i req => if i = index then value else req)

/-- `updateRequirement(index, value)` on the component state. -/
def updateRequirement (index : Nat) (value : String) (s : FormState) : FormState :=
  { s with eventDetails :=
      { s.eventDetails with
          requirements := updateRequirementList index value s.eventDetails.requirements } }

/-- The mode toggle: `setUseManualDetails(!useManualDetails)`. -/
def toggleManualDetails (s : FormState) : FormState :=
  { s with useManualDetails := !s.useManualDetails }

/-- The `Next: Event Details` button is disabled exactly when
`!personName.trim()` is truthy, i.e. when the trimmed name is empty. -/
def nextToEventDisabled (s : FormState) : Bool :=
  (jsTrim s.personName) == ""

/-- Clicking the `Next: Event Details` trigger: a disabled button does
nothing; an enabled one runs `setActiveTab('event')`. -/
def clickNextToEvent (s : FormState) : FormState :=
  if nextToEventDisabled s then s else { s with activeTab := "event" }

/-- Clicking `Back to Person Details`: `setActiveTab('person')`. -/
def clickBackToPerson (s : FormState) : FormState :=
  { s with activeTab := "person" }

/-- Clicking the `Event Details` tab header: the `TabsTrigger` with value
`event` carries no `disabled` prop, so the enclosing
`Tabs onValueChange={setActiveTab}` runs `setActiveTab('event')`
unconditionally. -/
def clickEventTab (s : FormState) : FormState :=
  { s with activeTab := "event" }

/-- Clicking the `Person Details` tab header: the `TabsTrigger` with
value `person` is likewise always enabled and runs
`setActiveTab('person')`. -/
def clickPersonTab (s : FormState) : FormState :=
  { s with activeTab := "person" }

/-- `isFormValid` from the component:
`personName.trim() !== '' && (useManualDetails ? eventDetails.name.trim() !== '' : eventUrl.trim() !== '')`. -/
def isFormValid (s : FormState) : Bool :=
  (jsTrim s.personName) != "" &&
    (if s.useManualDetails then (jsTrim s.eventDetails.name) != "" else (jsTrim s.eventUrl) != "")

/-! ### Submission controller (`handleSubmit`) -/

/-- The JSON request body built by `handleSubmit`: either
`{ person_name, event_details }` (manual mode) or
`{ person_name, event_url }` (URL mode). -/
inductive RequestBody where
  | manualBody (person_name : String) (event_details : EventDetails)
  | urlBody (person_name : String) (event_url : String)
  deriving DecidableEq

/-- Outcome of parsing `response.json()`: either a parsed
`QualificationResult`, or a thrown failure whose message is `some m` when
the thrown value is an `Error` and `none` otherwise. -/
inductive JsonOutcome where
  | parsed (r : QualificationResult)
  | jsonFailure (message : Option String)
  deriving DecidableEq

/-- Outcome of the `fetch` call as seen by `handleSubmit`: either an HTTP
response with a status code (whose body parse is described by a
`JsonOutcome`), or a rejected fetch whose message is `some m` when the
thrown value is an `Error` and `none` otherwise. -/
inductive NetOutcome where
  | response (status : Nat) (json : JsonOutcome)
  | fetchFailure (message : Option String)
  deriving DecidableEq

/-- `response.ok`: status in the inclusive range 200 to 299. -/
def responseOk (status : Nat) : Bool :=
  200 ≤ status && status ≤ 299

/-- Observable effects of one run of `handleSubmit`, in order: the
`onLoadingChange` signals, the single `fetch` call, and the
`onResult` emission. -/
inductive SubmitEvent where
  | loadingChange (isLoading : Bool)
  | networkCall (url : String) (body : RequestBody)
  | emitResult (result : QualificationResult)
  deriving DecidableEq

/-- Whether a `SubmitEvent` is an `onResult` emission. -/
def isEmitEvent : SubmitEvent → Bool
  | SubmitEvent.emitResult _ => true
  | _ => false

/-- Whether a `SubmitEvent` is a `fetch` call. -/
def isCallEvent : SubmitEvent → Bool
  | SubmitEvent.networkCall _ _ => true
  | _ => false

/-- The endpoint and body built by `handleSubmit` for the active mode:
manual mode posts to `/qualify` with the spread of `eventDetails` whose
`requirements` are filtered by `req.trim() !== ''`; URL mode posts to
`/qualify-from-url` with `{ person_name, event_url }`. -/
def buildRequest (s : FormState) : String × RequestBody :=
  if s.useManualDetails then
    ("http://localhost:8000/qualify",
      RequestBody.manualBody s.personName
        { s.eventDetails with
            requirements := s.eventDetails.requirements.filter (fun req => jsTrim req != "") })
  else
    ("http://localhost:8000/qualify-from-url",
      RequestBody.urlBody s.personName s.eventUrl)

/-- The `QualificationResult` synthesised in the `catch` block of
`handleSubmit`, given the computed failure message and the current time. -/
def caughtResult (personName : String) (message : String) (now : String) :
    QualificationResult :=
  { person_name := personName
    qualification_score := 0
    qualification_reasoning := "Error occurred: " ++ message
    searches_performed := 0
    information_sources := []
    timestamp := now
    error := some message }

/-- The failure message `handleSubmit`'s `catch` block would compute for a
given network outcome, or `none` when the outcome succeeds: a non-ok
response throws `HTTP error! status: <code>`, and a thrown value yields
its own message when it is an `Error` and `Unknown error` otherwise. -/
def failureMessage : NetOutcome → Option String
  | NetOutcome.response status json =>
    if responseOk status then
      match json with
      | JsonOutcome.parsed _ => none
      | JsonOutcome.jsonFailure m => some (m.getD "Unknown error")
    else some ("HTTP error! status: " ++ toString status)
  | NetOutcome.fetchFailure m => some (m.getD "Unknown error")

/-- The single result `handleSubmit` passes to `onResult` once the
network call settles: the parsed body when the response is ok and parsing
succeeds, and the synthesised `catch`-block result on any failure (a
non-ok response throws `HTTP error! status: <code>`; a rejected fetch or
a failed body parse supplies its own message when the thrown value is an
`Error` and `Unknown error` otherwise). -/
def settledResult (s : FormState) (net : NetOutcome) (now : String) :
    QualificationResult :=
  match net with
  | NetOutcome.response status json =>
    if responseOk status then
      match json with
      | JsonOutcome.parsed r => r
      | JsonOutcome.jsonFailure m => caughtResult s.personName (m.getD "Unknown error") now
    else
      caughtResult s.personName ("HTTP error! status: " ++ toString status) now
  | NetOutcome.fetchFailure m => caughtResult s.personName (m.getD "Unknown error") now

/-- One run of `handleSubmit` as the ordered list of its observable
effects, given the form state, the network outcome, and the current time
`now` (`new Date().toISOString()`): the three validation guards return
early with no effect; otherwise the loading signal is raised, the single
mode-specific `fetch` is issued, exactly one result (parsed on success,
synthesised in `catch` on any failure) is emitted, and the loading signal
is lowered in the `finally` block. -/
def handleSubmitTrace (s : FormState) (net : NetOutcome) (now : String) :
    List SubmitEvent :=
  if (jsTrim s.personName) == "" then []
  else if s.useManualDetails && (jsTrim s.eventDetails.name) == "" then []
  else if !s.useManualDetails && (jsTrim s.eventUrl) == "" then []
  else
    let req := buildRequest s
    [SubmitEvent.loadingChange true,
     SubmitEvent.networkCall req.1 req.2,
     SubmitEvent.emitResult (settledResult s net now),
     SubmitEvent.loadingChange false]

/-! ### Result presentation (`ResultsPanel`, `getScoreLabel`) -/

/-- `getScoreLabel` from `ResultsPanel`: the score-band label. -/
def getScoreLabel (score : ℚ) : String :=
  if score ≥ 8 then "Highly Qualified"
  else if score ≥ 6 then "Well Qualified"
  else if score ≥ 4 then "Minimally Qualified"
  else "Not Qualified"

/-- JavaScript truthiness of the optional `error` string, as used by
`const hasError = result.error`: absent and empty strings are falsy. -/
def truthyStr : Option String → Bool
  | none => false
  | some s => s != ""

/-- `const score = result.qualification_score || 0`: a falsy (zero) score
falls back to `0`. -/
def displayedScore (r : QualificationResult) : ℚ :=
  if r.qualification_score = 0 then 0 else r.qualification_score

/-- The headline shown by `ResultsPanel`:
`hasError ? 'Analysis Failed' : getScoreLabel(score)`. -/
def resultHeadline (r : QualificationResult) : String :=
  if truthyStr r.error then "Analysis Failed" else getScoreLabel (displayedScore r)

/-! ### Discrete user actions on the form state -/

/-- The discrete user actions the rendered form exposes: the field
setters, the mode toggle, the requirement-list edits, the two in-form
navigation buttons, and the two always-enabled tab headers. A
`removeReq` click exists only while the requirements list has more than
one entry (the remove button is rendered under
`eventDetails.requirements.length > 1`), so it is guarded accordingly. -/
inductive FormAction where
  | setPersonName (value : String)
  | setEventUrl (value : String)
  | toggleManual
  | setEventName (value : String)
  | setEventType (value : String)
  | setAudience (value : String)
  | setFormat (value : String)
  | addReq
  | removeReq (index : Nat)
  | updateReq (index : Nat) (value : String)
  | clickNext
  | clickBack
  | selectEventTab
  | selectPersonTab

/-- Effect of one user action on the form state. -/
def applyAction (s : FormState) : FormAction → FormState
  | FormAction.setPersonName v => { s with personName := v }
  | FormAction.setEventUrl v => { s with eventUrl := v }
  | FormAction.toggleManual => toggleManualDetails s
  | FormAction.setEventName v =>
      { s with eventDetails := { s.eventDetails with name := v } }
  | FormAction.setEventType v =>
      { s with eventDetails := { s.eventDetails with type := v } }
  | FormAction.setAudience v =>
      { s with eventDetails := { s.eventDetails with audience := v } }
  | FormAction.setFormat v =>
      { s with eventDetails := { s.eventDetails with format := v } }
  | FormAction.addReq => addRequirement s
  | FormAction.removeReq i =>
      if 1 < s.eventDetails.requirements.length then removeRequirement i s else s
  | FormAction.updateReq i v => updateRequirement i v s
  | FormAction.clickNext => clickNextToEvent s
  | FormAction.clickBack => clickBackToPerson s
  | FormAction.selectEventTab => clickEventTab s
  | FormAction.selectPersonTab => clickPersonTab s

/-- Running a list of user actions from a state. -/
def runActions (s : FormState) (acts : List FormAction) : FormState :=
  acts.foldl applyAction s

/-- A form state is reachable when some sequence of user actions produces
it from the initial state. -/
def reachable (s : FormState) : Prop :=
  ∃ acts : List FormAction, runActions initialState acts = s

/-- Person-name component of either request body shape. -/
def bodyPersonName : RequestBody → String
  | RequestBody.manualBody p _ => p
  | RequestBody.urlBody p _ => p

/-! ### Sample states used by the witnesses -/

/-- A valid URL-mode form state. -/
def sampleUrlState : FormState :=
  { personName := "Jane Doe"
    eventUrl := "https://luma.com/x"
    useManualDetails := false
    eventDetails :=
      { name := "", type := "", requirements := [""], audience := "", format := "" }
    activeTab := "event" }

/-- A valid manual-mode form state whose requirements mix blank and
non-blank entries. -/
def sampleManualState : FormState :=
  { personName := "Jane Doe"
    eventUrl := ""
    useManualDetails := true
    eventDetails :=
      { name := "AI Conference"
        type := "Technical Conference"
        requirements := ["", "a", "  ", "b"]
        audience := "ML engineers"
        format := "45-minute talk" }
    activeTab := "event" }

/-- An invalid form state: the person name is blank after trimming. -/
def sampleInvalidState : FormState :=
  { personName := "   "
    eventUrl := "https://luma.com/x"
    useManualDetails := false
    eventDetails :=
      { name := "", type := "", requirements := [""], audience := "", format := "" }
    activeTab := "event" }

/-- A valid URL-mode state whose person name carries surrounding
whitespace. -/
def samplePaddedState : FormState :=
  { personName := "  Jane Doe "
    eventUrl := "https://luma.com/x"
    useManualDetails := false
    eventDetails :=
      { name := "", type := "", requirements := [""], audience := "", format := "" }
    activeTab := "event" }

/-! ### Helper lemmas -/

/-- `isFormValid` spelled out as the combined validity predicate. -/
lemma isFormValid_iff (s : FormState) :
    isFormValid s = true ↔
      (jsTrim s.personName ≠ "" ∧
        (s.useManualDetails = true → jsTrim s.eventDetails.name ≠ "") ∧
        (s.useManualDetails = false → jsTrim s.eventUrl ≠ "")) := by
  cases hm : s.useManualDetails <;> simp [isFormValid, hm]

/-- On a valid state, `handleSubmit` raises the loading signal, issues
the single mode-specific call, emits the settled result, and lowers the
loading signal, in that order. -/
lemma handleSubmitTrace_valid (s : FormState) (net : NetOutcome) (now : String)
    (hv : isFormValid s = true) :
    handleSubmitTrace s net now =
      [SubmitEvent.loadingChange true,
       SubmitEvent.networkCall (buildRequest s).1 (buildRequest s).2,
       SubmitEvent.emitResult (settledResult s net now),
       SubmitEvent.loadingChange false] := by
  unfold handleSubmitTrace
  cases hm : s.useManualDetails <;> simp [isFormValid, hm] at hv <;>
    simp [hm, hv.1, hv.2]

/-- On an invalid state, `handleSubmit` returns before any effect. -/
lemma handleSubmitTrace_invalid (s : FormState) (net : NetOutcome) (now : String)
    (hv : isFormValid s = false) :
    handleSubmitTrace s net now = [] := by
  unfold handleSubmitTrace
  by_cases hp : jsTrim s.personName = ""
  · simp [hp]
  · cases hm : s.useManualDetails
    · have hu : jsTrim s.eventUrl = "" := by
        simp [isFormValid, hm, hp] at hv; exact hv
      simp [hp, hm, hu]
    · have hn : jsTrim s.eventDetails.name = "" := by
        simp [isFormValid, hm, hp] at hv; exact hv
      simp [hp, hm, hn]

/-- The displayed score `result.qualification_score || 0` equals the
score itself (the fallback only replaces a zero score by zero). -/
lemma displayedScore_eq (r : QualificationResult) :
    displayedScore r = r.qualification_score := by
  unfold displayedScore
  split_ifs with h
  · exact h.symm
  · rfl

/-! ### Claims -/

/-- Claim C5: `getScoreLabel` classifies every score into the four bands
with `>=` boundaries: at least 8 is `Highly Qualified`, at least 6 and
below 8 is `Well Qualified`, at least 4 and below 6 is
`Minimally Qualified`, and below 4 is `Not Qualified`. -/
theorem claim5_score_banding (q : ℚ) :
    (8 ≤ q → getScoreLabel q = "Highly Qualified") ∧
    (6 ≤ q → q < 8 → getScoreLabel q = "Well Qualified") ∧
    (4 ≤ q → q < 6 → getScoreLabel q = "Minimally Qualified") ∧
    (q < 4 → getScoreLabel q = "Not Qualified") := by
  unfold getScoreLabel
  refine ⟨fun h => ?_, fun h1 h2 => ?_, fun h1 h2 => ?_, fun h => ?_⟩ <;>
    split_ifs <;> first | rfl | linarith

/-- Claim C5 witness: the boundary and off-boundary sample scores 8, 7.9,
4 and 3.9 land in the expected bands. -/
theorem claim5_score_banding_witness :
    getScoreLabel 8 = "Highly Qualified" ∧
    getScoreLabel (mkRat 79 10) = "Well Qualified" ∧
    getScoreLabel 4 = "Minimally Qualified" ∧
    getScoreLabel (mkRat 39 10) = "Not Qualified" :=
  ⟨(claim5_score_banding 8).1 (by decide),
   (claim5_score_banding (mkRat 79 10)).2.1 (by decide) (by decide),
   (claim5_score_banding 4).2.2.1 (by decide) (by decide),
   (claim5_score_banding (mkRat 39 10)).2.2.2 (by decide)⟩

/-- A result carrying an empty-string `error` together with a high
score. -/
def emptyErrorResult : QualificationResult :=
  { person_name := "Jane Doe"
    qualification_score := 8
    qualification_reasoning := "ok"
    searches_performed := 1
    information_sources := []
    timestamp := "2024-01-01T00:00:00Z"
    error := some "" }

/-- Claim C6 counterexample: a result whose `error` field is present but
equal to the empty string is not shown as a failure — `ResultsPanel`
tests JavaScript truthiness of `result.error`, so the empty string falls
through to the score band. -/
theorem claim6_counterexample :
    emptyErrorResult.error.isSome = true ∧
    resultHeadline emptyErrorResult = "Highly Qualified" ∧
    resultHeadline emptyErrorResult ≠ "Analysis Failed" := by
  decide

/-- Claim C6 (amended): a result whose `error` field is present with a
non-empty value is classified as a failure regardless of
`qualification_score`; when `error` is absent or is the empty string the
score band is shown. -/
theorem claim6_error_overrides_banding (r : QualificationResult) :
    (∀ m, r.error = some m → m ≠ "" → resultHeadline r = "Analysis Failed") ∧
    (r.error = none ∨ r.error = some "" →
      resultHeadline r = getScoreLabel r.qualification_score) := by
  constructor
  · intro m hm hne
    simp [resultHeadline, truthyStr, hm, hne]
  · intro h
    have hfalse : truthyStr r.error = false := by
      rcases h with h | h <;> simp [truthyStr, h]
    simp [resultHeadline, hfalse, displayedScore_eq]

/-- A failure result with a non-empty error message. -/
def failedResult : QualificationResult :=
  { person_name := "Jane Doe"
    qualification_score := 9
    qualification_reasoning := "r"
    searches_performed := 0
    information_sources := []
    timestamp := "2024-01-01T00:00:00Z"
    error := some "boom" }

/-- A success result with no error. -/
def successResult : QualificationResult :=
  { person_name := "Jane Doe"
    qualification_score := 7
    qualification_reasoning := "r"
    searches_performed := 3
    information_sources := []
    timestamp := "2024-01-01T00:00:00Z"
    error := none }

/-- Claim C6 witness: a non-empty error shows the failure headline, and
an absent error shows the band for the score. -/
theorem claim6_error_overrides_banding_witness :
    resultHeadline failedResult = "Analysis Failed" ∧
    resultHeadline successResult = getScoreLabel successResult.qualification_score :=
  ⟨(claim6_error_overrides_banding failedResult).1 "boom" rfl (by decide),
   (claim6_error_overrides_banding successResult).2 (Or.inl rfl)⟩

/-- Claim C7 counterexample: in the initial state the person name is
blank after trimming, yet the single user action of clicking the
`Event Details` tab header — an always-enabled `TabsTrigger` wired to
`setActiveTab` — changes the state and moves the active step to the
event tab, so not every trigger of the `PersonStep → EventStep`
transition is refused. -/
theorem claim7_counterexample :
    jsTrim initialState.personName = "" ∧
    runActions initialState [FormAction.selectEventTab] ≠ initialState ∧
    (runActions initialState [FormAction.selectEventTab]).activeTab = "event" := by
  decide

/-- Claim C7 (amended): the `Next: Event Details` button performs the
`PersonStep → EventStep` transition only when the trimmed person name is
non-empty, and otherwise its click is refused, leaving the state
unchanged and raising no error; the `Event Details` tab header, by
contrast, is always enabled and performs the transition regardless of
the person name. -/
theorem claim7_person_step_guard (s : FormState) :
    (jsTrim s.personName ≠ "" → clickNextToEvent s = { s with activeTab := "event" }) ∧
    (jsTrim s.personName = "" → clickNextToEvent s = s) ∧
    (clickEventTab s).activeTab = "event" := by
  refine ⟨fun h => ?_, fun h => ?_, rfl⟩ <;>
    simp [clickNextToEvent, nextToEventDisabled, h]

/-- Claim C7 witness: the valid sample state advances to the event tab
via the button, the blank-name sample state stays put under the button,
and the tab header advances even the initial blank state. -/
theorem claim7_person_step_guard_witness :
    clickNextToEvent sampleUrlState = { sampleUrlState with activeTab := "event" } ∧
    clickNextToEvent sampleInvalidState = sampleInvalidState ∧
    (clickEventTab initialState).activeTab = "event" :=
  ⟨(claim7_person_step_guard sampleUrlState).1 (by decide),
   (claim7_person_step_guard sampleInvalidState).2.1 (by decide),
   (claim7_person_step_guard initialState).2.2⟩

/-- Claim C8: toggling the submission mode any number of times leaves the
URL-mode field, every manual-mode field, and the person name unchanged,
and toggling twice restores the whole state (the toggle is an
involution). -/
theorem claim8_toggle_involution (s : FormState) (n : Nat) :
    (toggleManualDetails^[n] s).eventUrl = s.eventUrl ∧
    (toggleManualDetails^[n] s).eventDetails = s.eventDetails ∧
    (toggleManualDetails^[n] s).personName = s.personName ∧
    toggleManualDetails (toggleManualDetails s) = s := by
  have key : ∀ m : Nat,
      (toggleManualDetails^[m] s).eventUrl = s.eventUrl ∧
      (toggleManualDetails^[m] s).eventDetails = s.eventDetails ∧
      (toggleManualDetails^[m] s).personName = s.personName := by
    intro m
    induction m with
    | zero => exact ⟨rfl, rfl, rfl⟩
    | succ k ih =>
      rw [Function.iterate_succ_apply']
      exact ⟨ih.1, ih.2.1, ih.2.2⟩
  refine ⟨(key n).1, (key n).2.1, (key n).2.2, ?_⟩
  cases s
  simp [toggleManualDetails]

/-- On any failed outcome, the settled result is the `catch`-block
synthesis for the computed failure message. -/
lemma settledResult_of_failure (s : FormState) (net : NetOutcome) (now m : String)
    (hm : failureMessage net = some m) :
    settledResult s net now = caughtResult s.personName m now := by
  cases net with
  | response status json =>
    by_cases hok : responseOk status = true
    · cases json with
      | parsed r => simp [failureMessage, hok] at hm
      | jsonFailure mm =>
        simp [failureMessage, hok] at hm
        simp [settledResult, hok, hm]
    · rw [Bool.not_eq_true] at hok
      simp [failureMessage, hok] at hm
      simp [settledResult, hok, hm]
  | fetchFailure mm =>
    simp [failureMessage] at hm
    simp [settledResult, hm]

/-- Claim C1: on every valid submission exactly one result is delivered,
and for every failed network outcome the delivered result is the local
synthesis carrying the failure message as `error`, score 0, zero searches,
no sources and the current time; a non-ok response's message embeds its
status code, a rejected fetch keeps its own message (for instance
`fetch failed`), and a message-less failure falls back to
`Unknown error`. -/
theorem claim1_failure_normalization (s : FormState) (net : NetOutcome) (now : String)
    (hv : isFormValid s = true) :
    (handleSubmitTrace s net now).countP isEmitEvent = 1 ∧
    (∀ m, failureMessage net = some m →
      SubmitEvent.emitResult
        { person_name := s.personName
          qualification_score := 0
          qualification_reasoning := "Error occurred: " ++ m
          searches_performed := 0
          information_sources := []
          timestamp := now
          error := some m } ∈ handleSubmitTrace s net now) ∧
    (∀ status json, net = NetOutcome.response status json → responseOk status = false →
      failureMessage net = some ("HTTP error! status: " ++ toString status)) ∧
    failureMessage (NetOutcome.fetchFailure (some "fetch failed")) = some "fetch failed" ∧
    failureMessage (NetOutcome.fetchFailure none) = some "Unknown error" := by
  rw [handleSubmitTrace_valid s net now hv]
  refine ⟨?_, ?_, ?_, rfl, rfl⟩
  · simp [List.countP_cons, isEmitEvent]
  · intro m hm
    rw [settledResult_of_failure s net now m hm]
    simp [caughtResult]
  · intro status json hnet hok
    subst hnet
    simp [failureMessage, hok]

/-- A 500 response whose body is never parsed. -/
def net500 : NetOutcome :=
  NetOutcome.response 500 (JsonOutcome.jsonFailure none)

/-- Claim C1 witness: on the valid URL-mode sample state, a 500 response
delivers exactly one result, and that result is the local synthesis whose
`error` embeds the status code 500. -/
theorem claim1_failure_normalization_witness :
    (handleSubmitTrace sampleUrlState net500 "2024-01-01T00:00:00Z").countP isEmitEvent = 1 ∧
    SubmitEvent.emitResult
      { person_name := "Jane Doe"
        qualification_score := 0
        qualification_reasoning := "Error occurred: HTTP error! status: 500"
        searches_performed := 0
        information_sources := []
        timestamp := "2024-01-01T00:00:00Z"
        error := some "HTTP error! status: 500" } ∈
      handleSubmitTrace sampleUrlState net500 "2024-01-01T00:00:00Z" := by
  have h := claim1_failure_normalization sampleUrlState net500 "2024-01-01T00:00:00Z" (by decide)
  exact ⟨h.1, h.2.1 "HTTP error! status: 500" (by decide)⟩

/-- Claim C2: a network call happens if and only if the combined validity
predicate holds (person name non-blank, and the active mode's required
field non-blank), and on an invalid state the submission produces no
effect at all: no call, no loading signal, no result. -/
theorem claim2_validity_gates_network (s : FormState) (net : NetOutcome) (now : String) :
    ((∃ u b, SubmitEvent.networkCall u b ∈ handleSubmitTrace s net now) ↔
      (jsTrim s.personName ≠ "" ∧
        (s.useManualDetails = true → jsTrim s.eventDetails.name ≠ "") ∧
        (s.useManualDetails = false → jsTrim s.eventUrl ≠ ""))) ∧
    (isFormValid s = false → handleSubmitTrace s net now = []) := by
  constructor
  · rw [← isFormValid_iff]
    constructor
    · rintro ⟨u, b, hmem⟩
      by_contra hv
      rw [Bool.not_eq_true] at hv
      rw [handleSubmitTrace_invalid s net now hv] at hmem
      simp at hmem
    · intro hv
      refine ⟨(buildRequest s).1, (buildRequest s).2, ?_⟩
      rw [handleSubmitTrace_valid s net now hv]
      simp
  · exact handleSubmitTrace_invalid s net now

/-- Claim C2 witness: the blank-name sample state is invalid and its
submission is a no-op with an empty effect trace. -/
theorem claim2_validity_gates_network_witness :
    isFormValid sampleInvalidState = false ∧
    handleSubmitTrace sampleInvalidState net500 "2024-01-01T00:00:00Z" = [] :=
  ⟨by decide,
   (claim2_validity_gates_network sampleInvalidState net500 "2024-01-01T00:00:00Z").2
     (by decide)⟩

/-- Claim C3: every manual-mode submission transmits the in-memory event
details with only `requirements` changed, replaced by its blank-free
filtering; the kept entries form an order-preserving sublist consisting of
exactly the non-blank entries. -/
theorem claim3_requirements_filtered (s : FormState) (net : NetOutcome) (now : String)
    (hmode : s.useManualDetails = true) (hv : isFormValid s = true) :
    SubmitEvent.networkCall "http://localhost:8000/qualify"
        (RequestBody.manualBody s.personName
          { s.eventDetails with
              requirements :=
                s.eventDetails.requirements.filter (fun req => jsTrim req != "") }) ∈
      handleSubmitTrace s net now ∧
    List.Sublist
      (s.eventDetails.requirements.filter (fun req => jsTrim req != ""))
      s.eventDetails.requirements ∧
    (∀ r ∈ s.eventDetails.requirements.filter (fun req => jsTrim req != ""),
      jsTrim r ≠ "") ∧
    (∀ r ∈ s.eventDetails.requirements, jsTrim r ≠ "" →
      r ∈ s.eventDetails.requirements.filter (fun req => jsTrim req != "")) := by
  refine ⟨?_, List.filter_sublist _, ?_, ?_⟩
  · rw [handleSubmitTrace_valid s net now hv]
    simp [buildRequest, hmode]
  · intro r hr
    rw [List.mem_filter] at hr
    simpa using hr.2
  · intro r hr hne
    rw [List.mem_filter]
    exact ⟨hr, by simpa using hne⟩

/-- Claim C3 witness: on the manual-mode sample state with requirements
`["", "a", "  ", "b"]`, the transmitted details keep the other fields and
carry requirements `["a", "b"]`. -/
theorem claim3_requirements_filtered_witness :
    SubmitEvent.networkCall "http://localhost:8000/qualify"
        (RequestBody.manualBody "Jane Doe"
          { sampleManualState.eventDetails with
              requirements :=
                sampleManualState.eventDetails.requirements.filter
                  (fun req => jsTrim req != "") }) ∈
      handleSubmitTrace sampleManualState net500 "2024-01-01T00:00:00Z" ∧
    sampleManualState.eventDetails.requirements.filter (fun req => jsTrim req != "") =
      ["a", "b"] :=
  ⟨(claim3_requirements_filtered sampleManualState net500 "2024-01-01T00:00:00Z"
      rfl (by decide)).1,
   by decide⟩

/-- Claim C4: every valid submission issues exactly one call, whose
endpoint and body shape are determined by the active mode alone: URL mode
posts `{ person_name, event_url }` to `/qualify-from-url`, manual mode
posts `{ person_name, event_details }` to `/qualify`. -/
theorem claim4_mode_determines_endpoint (s : FormState) (net : NetOutcome) (now : String)
    (hv : isFormValid s = true) :
    (handleSubmitTrace s net now).countP isCallEvent = 1 ∧
    (s.useManualDetails = false →
      SubmitEvent.networkCall "http://localhost:8000/qualify-from-url"
          (RequestBody.urlBody s.personName s.eventUrl) ∈ handleSubmitTrace s net now) ∧
    (s.useManualDetails = true →
      SubmitEvent.networkCall "http://localhost:8000/qualify"
          (RequestBody.manualBody s.personName
            { s.eventDetails with
                requirements :=
                  s.eventDetails.requirements.filter (fun req => jsTrim req != "") }) ∈
        handleSubmitTrace s net now) := by
  rw [handleSubmitTrace_valid s net now hv]
  refine ⟨?_, ?_, ?_⟩
  · simp [List.countP_cons, isCallEvent]
  · intro hm
    simp [buildRequest, hm]
  · intro hm
    simp [buildRequest, hm]

/-- Claim C4 witness: person `Jane Doe` in URL mode with the Luma URL
sends exactly that pair to `/qualify-from-url`, in a trace with a single
call. -/
theorem claim4_mode_determines_endpoint_witness :
    (handleSubmitTrace sampleUrlState net500 "2024-01-01T00:00:00Z").countP isCallEvent = 1 ∧
    SubmitEvent.networkCall "http://localhost:8000/qualify-from-url"
        (RequestBody.urlBody "Jane Doe" "https://luma.com/x") ∈
      handleSubmitTrace sampleUrlState net500 "2024-01-01T00:00:00Z" := by
  have h := claim4_mode_determines_endpoint sampleUrlState net500 "2024-01-01T00:00:00Z"
    (by decide)
  exact ⟨h.1, h.2.1 rfl⟩

/-- Claim C10: every valid submission transmits the person-name input
verbatim — the call carried by the trace has `person_name` equal to the
in-memory `personName`, with the body shaped by the active mode. -/
theorem claim10_person_name_verbatim (s : FormState) (net : NetOutcome) (now : String)
    (hv : isFormValid s = true) :
    SubmitEvent.networkCall (buildRequest s).1 (buildRequest s).2 ∈
      handleSubmitTrace s net now ∧
    bodyPersonName (buildRequest s).2 = s.personName ∧
    ((buildRequest s).2 = RequestBody.urlBody s.personName s.eventUrl ∨
      (buildRequest s).2 = RequestBody.manualBody s.personName
        { s.eventDetails with
            requirements :=
              s.eventDetails.requirements.filter (fun req => jsTrim req != "") }) := by
  refine ⟨?_, ?_, ?_⟩
  · rw [handleSubmitTrace_valid s net now hv]
    simp
  · cases hm : s.useManualDetails <;> simp [buildRequest, bodyPersonName, hm]
  · cases hm : s.useManualDetails
    · exact Or.inl (by simp [buildRequest, hm])
    · exact Or.inr (by simp [buildRequest, hm])

/-- Claim C10 witness: the padded name `"  Jane Doe "` passes validation
and is transmitted verbatim, with its surrounding whitespace. -/
theorem claim10_person_name_verbatim_witness :
    SubmitEvent.networkCall (buildRequest samplePaddedState).1
        (buildRequest samplePaddedState).2 ∈
      handleSubmitTrace samplePaddedState net500 "2024-01-01T00:00:00Z" ∧
    bodyPersonName (buildRequest samplePaddedState).2 = "  Jane Doe " := by
  have h := claim10_person_name_verbatim samplePaddedState net500 "2024-01-01T00:00:00Z"
    (by decide)
  exact ⟨h.1, h.2.1⟩

/-- Indices enumerated from `n` are all at least `n`, so filtering away a
smaller index keeps every entry. -/
lemma enumFrom_filter_ne_of_lt (l : List String) (n index : Nat) (h : index < n) :
    (List.enumFrom n l).filter (fun p => p.1 != index) = List.enumFrom n l := by
  induction l generalizing n with
  | nil => rfl
  | cons a t ih =>
    rw [List.enumFrom_cons, List.filter_cons]
    have hcond : (((n, a).1 != index) = true) := by
      simp only [bne_iff_ne, ne_eq]
      exact fun he => absurd (he ▸ h) (lt_irrefl index)
    rw [if_pos hcond, ih (n + 1) (Nat.lt_succ_of_lt h)]

/-- The positional filter of `removeRequirement` drops at most one
entry. -/
lemma removeRequirementList_length (index : Nat) (l : List String) :
    l.length - 1 ≤ (removeRequirementList index l).length := by
  unfold removeRequirementList
  rw [List.enum]
  suffices key : ∀ (t : List String) (n : Nat),
      t.length - 1 ≤ (((List.enumFrom n t).filter (fun p => p.1 != index)).map Prod.snd).length by
    exact key l 0
  intro t
  induction t with
  | nil => intro n; simp
  | cons a t ih =>
    intro n
    rw [List.enumFrom_cons, List.filter_cons]
    by_cases hn : n = index
    · have hcond : (((n, a).1 != index) = false) := by simp [hn]
      rw [if_neg (by simp [hcond])]
      rw [enumFrom_filter_ne_of_lt t (n + 1) index (hn ▸ Nat.lt_succ_self n)]
      rw [List.enumFrom_map_snd]
      simp
    · have hcond : (((n, a).1 != index) = true) := by simp [hn]
      rw [if_pos hcond]
      have := ih (n + 1)
      simp only [List.map_cons, List.length_cons]
      omega

/-- Every user action keeps the requirements list non-empty: the remove
button only exists while the list has at least two entries, and removal
drops at most one. -/
lemma applyAction_req_length (s : FormState) (a : FormAction)
    (h : 1 ≤ s.eventDetails.requirements.length) :
    1 ≤ (applyAction s a).eventDetails.requirements.length := by
  cases a with
  | setPersonName v => exact h
  | setEventUrl v => exact h
  | toggleManual => exact h
  | setEventName v => exact h
  | setEventType v => exact h
  | setAudience v => exact h
  | setFormat v => exact h
  | addReq =>
    simp only [applyAction, addRequirement, List.length_append]
    omega
  | removeReq i =>
    simp only [applyAction]
    split_ifs with hlen
    · have := removeRequirementList_length i s.eventDetails.requirements
      simp only [removeRequirement]
      omega
    · exact h
  | updateReq i v =>
    simp only [applyAction, updateRequirement, updateRequirementList, List.length_mapIdx]
    exact h
  | clickNext =>
    simp only [applyAction, clickNextToEvent]
    split_ifs <;> exact h
  | clickBack => exact h
  | selectEventTab => exact h
  | selectPersonTab => exact h

/-- Claim C9: every reachable editable state keeps at least one
requirements entry, and `updateRequirement` is positional: it preserves
the length, leaves every other position unchanged, and writes the new
value at the given in-range position. -/
theorem claim9_requirements_invariants :
    (∀ s : FormState, reachable s → 1 ≤ s.eventDetails.requirements.length) ∧
    (∀ (l : List String) (index : Nat) (value : String),
      (updateRequirementList index value l).length = l.length ∧
      (∀ j : Nat, j ≠ index → (updateRequirementList index value l)[j]? = l[j]?) ∧
      (index < l.length → (updateRequirementList index value l)[index]? = some value)) := by
  constructor
  · intro s hs
    obtain ⟨acts, rfl⟩ := hs
    suffices key : ∀ (acts : List FormAction) (t : FormState),
        1 ≤ t.eventDetails.requirements.length →
        1 ≤ (runActions t acts).eventDetails.requirements.length by
      exact key acts initialState (by decide)
    intro acts
    induction acts with
    | nil => intro t ht; exact ht
    | cons a rest ih =>
      intro t ht
      exact ih (applyAction t a) (applyAction_req_length t a ht)
  · intro l index value
    refine ⟨List.length_mapIdx, ?_, ?_⟩
    · intro j hj
      rw [updateRequirementList, List.getElem?_mapIdx]
      cases l[j]? <;> simp [hj]
    · intro hidx
      rw [updateRequirementList, List.getElem?_mapIdx, List.getElem?_eq_getElem hidx]
      simp

/-- Claim C9 witness: the initial state is reachable with a singleton
requirements list, and a concrete positional update preserves length,
rewrites the targeted slot and leaves the others alone. -/
theorem claim9_requirements_invariants_witness :
    1 ≤ initialState.eventDetails.requirements.length ∧
    (updateRequirementList 1 "X" ["a", "b", "c"]).length = 3 ∧
    (updateRequirementList 1 "X" ["a", "b", "c"])[1]? = some "X" ∧
    (updateRequirementList 1 "X" ["a", "b", "c"])[0]? = (["a", "b", "c"])[0]? :=
  ⟨claim9_requirements_invariants.1 initialState ⟨[], rfl⟩,
   (claim9_requirements_invariants.2 ["a", "b", "c"] 1 "X").1,
   (claim9_requirements_invariants.2 ["a", "b", "c"] 1 "X").2.2 (by decide),
   (claim9_requirements_invariants.2 ["a", "b", "c"] 1 "X").2.1 0 (by decide)⟩

end ProspectLens
